import Mathlib

/-!
Shallow embedding of scripts/fastapi_backend.py (DermaVision AI backend).

The embedded pieces are: the JSON reply parser and probability
normalizer `parse_gemini_response`, the synthetic fallback generator
`get_fallback_analysis`, the pydantic response models
(`Tier1Results`, `Tier2Results`, `AnalysisResponse`), and the request
handlers `analyze_skin_lesion` (POST /analyze) and
`analyze_uploaded_image` (POST /analyze-upload).  Real numbers are
modelled by ℚ; Python exceptions are modelled by `Except String`;
text is modelled by `List Char` where index arithmetic matters and by
`String` elsewhere.
-/

/-- JSON values, as produced by the standard library call json.loads.
Objects keep insertion order with unique keys; a duplicate key
overwrites the earlier value in place, as in a Python dict. -/
inductive Json where
  | null : Json
  | bool : Bool → Json
  | num : ℚ → Json
  | str : String → Json
  | arr : List Json → Json
  | obj : List (String × Json) → Json

/-- Insert a key into an object's entry list with Python-dict
semantics: an existing key keeps its position and gets the new value. -/
def objInsert (kvs : List (String × Json)) (k : String) (v : Json) :
    List (String × Json) :=
  match kvs with
  | [] => [(k, v)]
  | kv :: rest => if kv.1 = k then (k, v) :: rest else kv :: objInsert rest k v

/-- Numeric view of a JSON value, following Python where bool is an
int subtype (True counts as 1, False as 0); other values have no
numeric view and make arithmetic on them raise TypeError. -/
def jsonToNum : Json → Option ℚ
  | Json.num q => some q
  | Json.bool b => some (if b then 1 else 0)
  | _ => none

/-- The opening brace character, written via its code point. -/
def lbrace : Char := Char.ofNat 123

/-- The closing brace character, written via its code point. -/
def rbrace : Char := Char.ofNat 125

/-- JSON insignificant whitespace, dropped between tokens. -/
def skipWs (s : List Char) : List Char :=
  s.dropWhile (fun c => c = ' ' || c = '\t' || c = '\n' || c = '\r')

/-- Value of a hexadecimal digit, for \u escapes. -/
def hexVal (c : Char) : Option Nat :=
  if '0' ≤ c ∧ c ≤ '9' then some (c.toNat - '0'.toNat)
  else if 'a' ≤ c ∧ c ≤ 'f' then some (c.toNat - 'a'.toNat + 10)
  else if 'A' ≤ c ∧ c ≤ 'F' then some (c.toNat - 'A'.toNat + 10)
  else none

/-- Body of a JSON string literal after the opening quote: returns the
decoded string and the input following the closing quote.  Raw
control characters are rejected and the standard escapes decoded, as
json.loads does in its default strict mode. -/
def parseStringBody (acc : List Char) : List Char → Option (String × List Char)
  | [] => none
  | c :: rest =>
    if c = '"' then some (String.mk acc.reverse, rest)
    else if c = '\\' then
      match rest with
      | [] => none
      | e :: rest2 =>
        if e = '"' then parseStringBody ('"' :: acc) rest2
        else if e = '\\' then parseStringBody ('\\' :: acc) rest2
        else if e = '/' then parseStringBody ('/' :: acc) rest2
        else if e = 'b' then parseStringBody (Char.ofNat 8 :: acc) rest2
        else if e = 'f' then parseStringBody (Char.ofNat 12 :: acc) rest2
        else if e = 'n' then parseStringBody ('\n' :: acc) rest2
        else if e = 'r' then parseStringBody ('\r' :: acc) rest2
        else if e = 't' then parseStringBody ('\t' :: acc) rest2
        else if e = 'u' then
          match rest2 with
          | h1 :: h2 :: h3 :: h4 :: rest3 =>
            match hexVal h1, hexVal h2, hexVal h3, hexVal h4 with
            | some a, some b, some c2, some d =>
              parseStringBody (Char.ofNat (((a * 16 + b) * 16 + c2) * 16 + d) :: acc) rest3
            | _, _, _, _ => none
          | _ => none
        else none
    else if c.toNat < 32 then none
    else parseStringBody (c :: acc) rest

/-- Natural number denoted by a list of decimal digits. -/
def digitsVal (ds : List Char) : Nat :=
  ds.foldl (fun acc c => 10 * acc + (c.toNat - '0'.toNat)) 0

/-- A JSON number starting at the head of the input: optional minus
sign, integer part without spurious leading zeros, optional fraction,
optional exponent; returns its exact rational value. -/
def parseNumberAt (s : List Char) : Option (Json × List Char) :=
  let (neg, s1) :=
    match s with
    | c :: t => if c = '-' then (true, t) else (false, s)
    | [] => (false, s)
  let intDigits := s1.takeWhile Char.isDigit
  let s2 := s1.dropWhile Char.isDigit
  if intDigits = [] then none
  else if 2 ≤ intDigits.length ∧ intDigits.headD '0' = '0' then none
  else
    let (fracOk, fracDigits, s3) :=
      match s2 with
      | c :: t =>
        if c = '.' then
          let fd := t.takeWhile Char.isDigit
          (!fd.isEmpty, fd, t.dropWhile Char.isDigit)
        else (true, [], s2)
      | [] => (true, [], s2)
    if fracOk = false then none
    else
      let (expOk, expNeg, expDigits, s4) :=
        match s3 with
        | c :: t =>
          if c = 'e' ∨ c = 'E' then
            let (en, t2) :=
              match t with
              | d :: t2 =>
                if d = '-' then (true, t2)
                else if d = '+' then (false, t2)
                else (false, t)
              | [] => (false, t)
            let ed := t2.takeWhile Char.isDigit
            (!ed.isEmpty, en, ed, t2.dropWhile Char.isDigit)
          else (true, false, [], s3)
        | [] => (true, false, [], s3)
      if expOk = false then none
      else
        let mantissa : ℚ :=
          (digitsVal intDigits : ℚ) +
            (digitsVal fracDigits : ℚ) / ((10 : ℚ) ^ fracDigits.length)
        let expo : ℤ :=
          if expNeg then -(digitsVal expDigits : ℤ) else (digitsVal expDigits : ℤ)
        let q : ℚ := mantissa * (10 : ℚ) ^ expo
        some (Json.num (if neg then -q else q), s4)

/-- Pending work of the recursive descent: a value to parse, the
members of an object being parsed, or the items of an array. -/
inductive ParseTask where
  | value : List Char → ParseTask
  | members : List Char → List (String × Json) → ParseTask
  | items : List Char → List Json → ParseTask

/-- Recursive descent over JSON with explicit fuel (structural, so the
kernel can evaluate it): a value task parses one JSON value at the
head of the input after optional whitespace; a members task parses
object entries after an opening brace or comma; an items task parses
array items after an opening bracket or comma. -/
def parseRun : Nat → ParseTask → Option (Json × List Char)
  | 0, _ => none
  | Nat.succ fuel, ParseTask.value s =>
    match skipWs s with
    | [] => none
    | c :: rest =>
      if c = lbrace then
        match skipWs rest with
        | c2 :: rest2 =>
          if c2 = rbrace then some (Json.obj [], rest2)
          else parseRun fuel (ParseTask.members rest [])
        | [] => none
      else if c = '[' then
        match skipWs rest with
        | ']' :: rest2 => some (Json.arr [], rest2)
        | _ => parseRun fuel (ParseTask.items rest [])
      else if c = '"' then
        (parseStringBody [] rest).map (fun p => (Json.str p.1, p.2))
      else if c = 't' then
        match rest with
        | 'r' :: 'u' :: 'e' :: rest2 => some (Json.bool true, rest2)
        | _ => none
      else if c = 'f' then
        match rest with
        | 'a' :: 'l' :: 's' :: 'e' :: rest2 => some (Json.bool false, rest2)
        | _ => none
      else if c = 'n' then
        match rest with
        | 'u' :: 'l' :: 'l' :: rest2 => some (Json.null, rest2)
        | _ => none
      else parseNumberAt (c :: rest)
  | Nat.succ fuel, ParseTask.members s acc =>
    match skipWs s with
    | '"' :: rest =>
      match parseStringBody [] rest with
      | none => none
      | some (key, rest2) =>
        match skipWs rest2 with
        | ':' :: rest3 =>
          match parseRun fuel (ParseTask.value rest3) with
          | none => none
          | some (v, rest4) =>
            let acc2 := objInsert acc key v
            match skipWs rest4 with
            | ',' :: rest5 => parseRun fuel (ParseTask.members rest5 acc2)
            | c :: rest5 =>
              if c = rbrace then some (Json.obj acc2, rest5) else none
            | [] => none
        | _ => none
    | _ => none
  | Nat.succ fuel, ParseTask.items s acc =>
    match parseRun fuel (ParseTask.value s) with
    | none => none
    | some (v, rest) =>
      match skipWs rest with
      | ',' :: rest2 => parseRun fuel (ParseTask.items rest2 (v :: acc))
      | ']' :: rest2 => some (Json.arr (v :: acc).reverse, rest2)
      | _ => none

/-- json.loads: parse a complete JSON document; trailing input other
than whitespace is an error ("Extra data"). -/
def jsonParse (s : List Char) : Option Json :=
  match parseRun (s.length + 1) (ParseTask.value s) with
  | some (v, rest) => if skipWs rest = [] then some v else none
  | none => none

/-- Index of the first occurrence of a character, if any. -/
def firstIdx (c : Char) : List Char → Option Nat
  | [] => none
  | x :: t => if x = c then some 0 else (firstIdx c t).map (· + 1)

/-- Index of the last occurrence of a character, if any. -/
def lastIdx (c : Char) : List Char → Option Nat
  | [] => none
  | x :: t =>
    match lastIdx c t with
    | some j => some (j + 1)
    | none => if x = c then some 0 else none

/-- The span matched by re.search of an opening brace, a greedy
any-character star, and a closing brace: the substring from the first
opening brace to the last closing brace, provided the first opening
brace comes before the last closing brace; no match otherwise. -/
def extractJsonSpan (s : List Char) : Option (List Char) :=
  match firstIdx lbrace s, lastIdx rbrace s with
  | some i, some j => if i < j then some ((s.drop i).take (j - i + 1)) else none
  | _, _ => none

/-- The JSON document embedded in a model reply: the extracted brace
span parsed by json.loads. -/
def extractedJson (s : List Char) : Option Json :=
  (extractJsonSpan s).bind jsonParse

/-- data.get(key, dict()) followed by taking the entries: the tier
sub-object's entries, empty when the key is absent, and a raised
AttributeError (modelled as an error value) when the value present
under the key is not an object or the data itself is not an object. -/
def getTierObj (data : Json) (key : String) : Except String (List (String × Json)) :=
  match data with
  | Json.obj kvs =>
    match kvs.lookup key with
    | none => Except.ok []
    | some (Json.obj t) => Except.ok t
    | some _ => Except.error ("AttributeError: no attribute values")
  | _ => Except.error ("AttributeError: no attribute get")

/-- Numeric values of a tier's entries, in order; a non-numeric value
makes the sum in the source raise TypeError, giving no value here. -/
def tierNums : List (String × Json) → Option (List ℚ)
  | [] => some []
  | kv :: rest =>
    match jsonToNum kv.2, tierNums rest with
    | some q, some qs => some (q :: qs)
    | _, _ => none

/-- Tier normalization: the total of the tier's values, replaced by 1
when it is zero (sum(...) or 1), then every value divided by that
total; raises TypeError when a value is not numeric. -/
def normalizeTier (kvs : List (String × Json)) : Except String (List (String × ℚ)) :=
  match tierNums kvs with
  | none => Except.error ("TypeError: unsupported operand type")
  | some qs =>
    let total : ℚ := if qs.sum = 0 then 1 else qs.sum
    Except.ok (List.zipWith (fun (kv : String × Json) q => (kv.1, q / total)) kvs qs)

/-- Lookup in a parsed JSON object, as dict.get with no default. -/
def objGet (data : Json) (key : String) : Option Json :=
  match data with
  | Json.obj kvs => kvs.lookup key
  | _ => none

/-- The confidence field: the parsed numeric value, 0.7 when the key
is absent, clamped by min(1.0, max(0.0, x)); a non-numeric value
raises TypeError inside max. -/
def getConfidence (data : Json) : Except String ℚ :=
  match objGet data ("confidence") with
  | none => Except.ok (min 1 (max 0 (7 / 10)))
  | some v =>
    match jsonToNum v with
    | none => Except.error ("TypeError: bad operand type for max")
    | some q => Except.ok (min 1 (max 0 q))

/-- The dict returned by parse_gemini_response: normalized tiers, the
description and recommendations values (defaulted only when their
keys are absent), and the clamped confidence. -/
structure ParsedAnalysis where
  tier1 : List (String × ℚ)
  tier2 : List (String × ℚ)
  description : Json
  recommendations : Json
  confidence : ℚ

/-- parse_gemini_response: extract the brace span (ValueError when
there is none), parse it as JSON (JSONDecodeError on invalid syntax),
normalize tier1 then tier2, and build the result dict with defaulted
description and recommendations and clamped confidence.  Every raised
exception is an error value. -/
def parse_gemini_response (s : List Char) : Except String ParsedAnalysis :=
  match extractJsonSpan s with
  | none => Except.error ("No JSON found in response")
  | some span =>
    match jsonParse span with
    | none => Except.error ("json.decoder.JSONDecodeError")
    | some data =>
      match getTierObj data ("tier1") with
      | Except.error e => Except.error e
      | Except.ok kvs1 =>
        match normalizeTier kvs1 with
        | Except.error e => Except.error e
        | Except.ok t1 =>
          match getTierObj data ("tier2") with
          | Except.error e => Except.error e
          | Except.ok kvs2 =>
            match normalizeTier kvs2 with
            | Except.error e => Except.error e
            | Except.ok t2 =>
              match getConfidence data with
              | Except.error e => Except.error e
              | Except.ok conf =>
                Except.ok
                  { tier1 := t1
                    tier2 := t2
                    description :=
                      (objGet data ("description")).getD
                        (Json.str ("Analysis complete."))
                    recommendations :=
                      (objGet data ("recommendations")).getD
                        (Json.arr [Json.str
                          ("Consult a dermatologist for professional evaluation.")])
                    confidence := conf }

/-- Sum of the values of a tier entry list. -/
def sumVals (l : List (String × ℚ)) : ℚ :=
  (l.map Prod.snd).sum

/-- One draw per category from random.uniform, the only random state
get_fallback_analysis consumes. -/
structure FallbackDraws where
  fungal : ℚ
  inflammatory : ℚ
  normal : ℚ
  malignant : ℚ
  benign : ℚ
  melanoma : ℚ
  bcc : ℚ
  eczema : ℚ
  atopicDermatitis : ℚ
  melanocyticNevi : ℚ
  bkl : ℚ
  psoriasis : ℚ
  seborrheicKeratoses : ℚ
  tinea : ℚ
  warts : ℚ

/-- Every draw lies within the per-category random.uniform bounds of
the source (random.uniform a b returns values in the closed range). -/
def drawsInRange (d : FallbackDraws) : Prop :=
  (0.05 : ℚ) ≤ d.fungal ∧ d.fungal ≤ 0.15 ∧
  (0.1 : ℚ) ≤ d.inflammatory ∧ d.inflammatory ≤ 0.25 ∧
  (0.05 : ℚ) ≤ d.normal ∧ d.normal ≤ 0.2 ∧
  (0.1 : ℚ) ≤ d.malignant ∧ d.malignant ≤ 0.35 ∧
  (0.2 : ℚ) ≤ d.benign ∧ d.benign ≤ 0.4 ∧
  (0.05 : ℚ) ≤ d.melanoma ∧ d.melanoma ≤ 0.25 ∧
  (0.05 : ℚ) ≤ d.bcc ∧ d.bcc ≤ 0.2 ∧
  (0.08 : ℚ) ≤ d.eczema ∧ d.eczema ≤ 0.18 ∧
  (0.03 : ℚ) ≤ d.atopicDermatitis ∧ d.atopicDermatitis ≤ 0.1 ∧
  (0.08 : ℚ) ≤ d.melanocyticNevi ∧ d.melanocyticNevi ≤ 0.15 ∧
  (0.05 : ℚ) ≤ d.bkl ∧ d.bkl ≤ 0.12 ∧
  (0.02 : ℚ) ≤ d.psoriasis ∧ d.psoriasis ≤ 0.08 ∧
  (0.03 : ℚ) ≤ d.seborrheicKeratoses ∧ d.seborrheicKeratoses ≤ 0.1 ∧
  (0.02 : ℚ) ≤ d.tinea ∧ d.tinea ≤ 0.06 ∧
  (0.01 : ℚ) ≤ d.warts ∧ d.warts ≤ 0.05

/-- The tier1_raw dict of get_fallback_analysis. -/
def tier1_raw (d : FallbackDraws) : List (String × ℚ) :=
  [(("fungal"), d.fungal), (("inflammatory"), d.inflammatory),
   (("normal"), d.normal), (("malignant"), d.malignant),
   (("benign"), d.benign)]

/-- The tier2_raw dict of get_fallback_analysis. -/
def tier2_raw (d : FallbackDraws) : List (String × ℚ) :=
  [(("melanoma"), d.melanoma), (("bcc"), d.bcc), (("eczema"), d.eczema),
   (("atopicDermatitis"), d.atopicDermatitis),
   (("melanocyticNevi"), d.melanocyticNevi), (("bkl"), d.bkl),
   (("psoriasis"), d.psoriasis),
   (("seborrheicKeratoses"), d.seborrheicKeratoses),
   (("tinea"), d.tinea), (("warts"), d.warts)]

/-- The dict returned by get_fallback_analysis. -/
structure FallbackAnalysis where
  tier1 : List (String × ℚ)
  tier2 : List (String × ℚ)
  description : String
  recommendations : List String
  confidence : ℚ

/-- get_fallback_analysis: each raw tier divided by its raw total,
with a fixed description, a fixed four-item recommendation list, and
confidence 0.75. -/
def get_fallback_analysis (d : FallbackDraws) : FallbackAnalysis :=
  let tier1_total := sumVals (tier1_raw d)
  let tier2_total := sumVals (tier2_raw d)
  { tier1 := (tier1_raw d).map (fun kv => (kv.1, kv.2 / tier1_total))
    tier2 := (tier2_raw d).map (fun kv => (kv.1, kv.2 / tier2_total))
    description :=
      ("Image analysis complete. This is a simulated result for demonstration purposes.")
    recommendations :=
      [("Schedule an appointment with a dermatologist for professional evaluation"),
       ("Monitor the lesion for any changes in size, shape, or color"),
       ("Take regular photos to track progression over time"),
       ("Protect the area from excessive sun exposure")]
    confidence := 0.75 }

/-- The pydantic model Tier1Results: five required float fields. -/
structure Tier1Results where
  fungal : ℚ
  inflammatory : ℚ
  normal : ℚ
  malignant : ℚ
  benign : ℚ

/-- The pydantic model Tier2Results: ten required float fields. -/
structure Tier2Results where
  melanoma : ℚ
  bcc : ℚ
  eczema : ℚ
  atopicDermatitis : ℚ
  melanocyticNevi : ℚ
  bkl : ℚ
  psoriasis : ℚ
  seborrheicKeratoses : ℚ
  tinea : ℚ
  warts : ℚ

/-- The field names of Tier1Results, in declaration order. -/
def tier1Keys : List String :=
  [("fungal"), ("inflammatory"), ("normal"), ("malignant"), ("benign")]

/-- The field names of Tier2Results, in declaration order. -/
def tier2Keys : List String :=
  [("melanoma"), ("bcc"), ("eczema"), ("atopicDermatitis"),
   ("melanocyticNevi"), ("bkl"), ("psoriasis"), ("seborrheicKeratoses"),
   ("tinea"), ("warts")]

/-- Values for the required fields of a pydantic tier model from the
keyword-argument dict: a missing field is a ValidationError; keys
beyond the required ones are ignored (pydantic's default extra
behaviour). -/
def buildTierVals (keys : List String) (kvs : List (String × ℚ)) :
    Except String (List ℚ) :=
  match keys with
  | [] => Except.ok []
  | k :: rest =>
    match kvs.lookup k with
    | none => Except.error (("ValidationError: field required: ") ++ k)
    | some v =>
      match buildTierVals rest kvs with
      | Except.error e => Except.error e
      | Except.ok vs => Except.ok (v :: vs)

/-- Tier1Results(**kvs): pydantic validation of the five fields. -/
def buildTier1 (kvs : List (String × ℚ)) : Except String Tier1Results :=
  match buildTierVals tier1Keys kvs with
  | Except.error e => Except.error e
  | Except.ok [f, i, n, m, b] => Except.ok ⟨f, i, n, m, b⟩
  | Except.ok _ => Except.error ("ValidationError")

/-- Tier2Results(**kvs): pydantic validation of the ten fields. -/
def buildTier2 (kvs : List (String × ℚ)) : Except String Tier2Results :=
  match buildTierVals tier2Keys kvs with
  | Except.error e => Except.error e
  | Except.ok [m, b, e2, a, mn, bk, p, sk, t, w] =>
    Except.ok ⟨m, b, e2, a, mn, bk, p, sk, t, w⟩
  | Except.ok _ => Except.error ("ValidationError")

/-- pydantic validation of a str field: only a JSON string passes. -/
def asStr : Json → Except String String
  | Json.str s => Except.ok s
  | _ => Except.error ("ValidationError: str type expected")

/-- String values of a JSON array's items, when they all are strings. -/
def strListVals : List Json → Option (List String)
  | [] => some []
  | Json.str s :: rest => (strListVals rest).map (fun ss => s :: ss)
  | _ => none

/-- pydantic validation of a list-of-str field. -/
def asStrList : Json → Except String (List String)
  | Json.arr xs =>
    match strListVals xs with
    | some ss => Except.ok ss
    | none => Except.error ("ValidationError: str type expected in list")
  | _ => Except.error ("ValidationError: list type expected")

/-- The pydantic model AnalysisResponse. -/
structure AnalysisResponse where
  success : Bool
  tier1 : Tier1Results
  tier2 : Tier2Results
  ai_malignant_prob : ℚ
  description : String
  recommendations : List String
  confidence : ℚ
  error : Option String

/-- The AnalysisResponse built on the parsed-reply path of /analyze:
tier models from the parsed dicts, ai_malignant_prob read from the
tier1 dict (present whenever Tier1Results validated), the parsed
description, recommendations and confidence, and no error field. -/
def buildParsedResponse (p : ParsedAnalysis) : Except String AnalysisResponse :=
  match buildTier1 p.tier1 with
  | Except.error e => Except.error e
  | Except.ok t1 =>
    match buildTier2 p.tier2 with
    | Except.error e => Except.error e
    | Except.ok t2 =>
      match asStr p.description with
      | Except.error e => Except.error e
      | Except.ok desc =>
        match asStrList p.recommendations with
        | Except.error e => Except.error e
        | Except.ok recs =>
          Except.ok
            { success := true
              tier1 := t1
              tier2 := t2
              ai_malignant_prob := t1.malignant
              description := desc
              recommendations := recs
              confidence := p.confidence
              error := none }

/-- The AnalysisResponse built from get_fallback_analysis on the two
fallback paths of /analyze (demo mode and exception handler). -/
def fallbackResponse (d : FallbackDraws) : Except String AnalysisResponse :=
  let a := get_fallback_analysis d
  match buildTier1 a.tier1 with
  | Except.error e => Except.error e
  | Except.ok t1 =>
    match buildTier2 a.tier2 with
    | Except.error e => Except.error e
    | Except.ok t2 =>
      Except.ok
        { success := true
          tier1 := t1
          tier2 := t2
          ai_malignant_prob := t1.malignant
          description := a.description
          recommendations := a.recommendations
          confidence := a.confidence
          error := none }

/-- The language_instructions dict of create_analysis_prompt. -/
def language_instructions : List (String × String) :=
  [(("en"), ("Respond in English.")),
   (("hi"), ("Respond in Hindi (हिंदी).")),
   (("ta"), ("Respond in Tamil (தமிழ்).")),
   (("te"), ("Respond in Telugu (తెలుగు).")),
   (("bn"), ("Respond in Bengali (বাংলা).")),
   (("mr"), ("Respond in Marathi (मराठी)."))]

/-- create_analysis_prompt: the fixed analysis prompt template around
the per-language instruction, defaulting to the English instruction
for an unknown language code. -/
def create_analysis_prompt (language : String) : String :=
  let lang_instruction :=
    (language_instructions.lookup language).getD
      ((language_instructions.lookup ("en")).getD (""))
  String.intercalate ("\n")
    [("You are a dermatological AI assistant analyzing a skin lesion image."),
     lang_instruction,
     (""),
     ("Analyze this skin image and provide a detailed assessment in JSON format with the following structure:"),
     (""),
     ("\x7b"),
     ("  \"tier1\": \x7b"),
     ("    \"fungal\": <probability 0-1>,"),
     ("    \"inflammatory\": <probability 0-1>,"),
     ("    \"normal\": <probability 0-1>,"),
     ("    \"malignant\": <probability 0-1>,"),
     ("    \"benign\": <probability 0-1>"),
     ("  \x7d,"),
     ("  \"tier2\": \x7b"),
     ("    \"melanoma\": <probability 0-1>,"),
     ("    \"bcc\": <probability 0-1 for Basal Cell Carcinoma>,"),
     ("    \"eczema\": <probability 0-1>,"),
     ("    \"atopicDermatitis\": <probability 0-1>,"),
     ("    \"melanocyticNevi\": <probability 0-1 for moles>,"),
     ("    \"bkl\": <probability 0-1 for Benign Keratosis>,"),
     ("    \"psoriasis\": <probability 0-1>,"),
     ("    \"seborrheicKeratoses\": <probability 0-1>,"),
     ("    \"tinea\": <probability 0-1 for ringworm>,"),
     ("    \"warts\": <probability 0-1>"),
     ("  \x7d,"),
     ("  \"description\": \"<brief description of what you observe>\","),
     ("  \"recommendations\": [\"<list of 3-5 recommendations>\"],"),
     ("  \"confidence\": <overall confidence 0-1>"),
     ("\x7d"),
     (""),
     ("IMPORTANT:"),
     ("- All tier1 probabilities must sum to 1.0"),
     ("- All tier2 probabilities must sum to 1.0"),
     ("- Be conservative with malignancy assessments"),
     ("- Recommend professional consultation for any concerning findings"),
     ("- Return ONLY valid JSON, no additional text"),
     (""),
     ("Analyze the image now:")]

/-- The standard base64 alphabet. -/
def b64alphabet : List Char :=
  String.toList
    ("ABCDEFGHIJKLMNOPQRSTUVWXYZabcdefghijklmnopqrstuvwxyz0123456789+/")

/-- The base64 character for a six-bit value. -/
def sextetChar (n : Nat) : Char :=
  b64alphabet.getD n 'A'

/-- base64.b64encode over bytes (naturals reduced mod 256): three
bytes become four alphabet characters, with = padding on a short
final group. -/
def b64encode : List Nat → List Char
  | [] => []
  | [a] =>
    let a := a % 256
    [sextetChar (a / 4), sextetChar (a % 4 * 16), '=', '=']
  | [a, b] =>
    let a := a % 256
    let b := b % 256
    [sextetChar (a / 4), sextetChar (a % 4 * 16 + b / 16),
     sextetChar (b % 16 * 4), '=']
  | a :: b :: c :: rest =>
    let a := a % 256
    let b := b % 256
    let c := c % 256
    sextetChar (a / 4) :: sextetChar (a % 4 * 16 + b / 16) ::
      sextetChar (b % 16 * 4 + c / 64) :: sextetChar (c % 64) ::
        b64encode rest

/-- Six-bit value of a base64 alphabet character. -/
def b64val (c : Char) : Option Nat :=
  b64alphabet.findIdx? (· = c)

/-- Four base64 characters at a time back into bytes; = padding only
at the very end, anything else is a binascii.Error. -/
def b64decodeGroups : List Char → Except String (List Nat)
  | [] => Except.ok []
  | c1 :: c2 :: c3 :: c4 :: rest =>
    match b64val c1, b64val c2 with
    | some v1, some v2 =>
      if c3 = '=' then
        if c4 = '=' ∧ rest = [] then Except.ok [v1 * 4 + v2 / 16]
        else Except.error ("binascii.Error: Invalid base64-encoded string")
      else
        match b64val c3 with
        | none => Except.error ("binascii.Error: Invalid base64-encoded string")
        | some v3 =>
          if c4 = '=' then
            if rest = [] then
              Except.ok [v1 * 4 + v2 / 16, v2 % 16 * 16 + v3 / 4]
            else Except.error ("binascii.Error: Invalid base64-encoded string")
          else
            match b64val c4 with
            | none => Except.error ("binascii.Error: Invalid base64-encoded string")
            | some v4 =>
              match b64decodeGroups rest with
              | Except.error e => Except.error e
              | Except.ok bs =>
                Except.ok ((v1 * 4 + v2 / 16) :: (v2 % 16 * 16 + v3 / 4) ::
                  (v3 % 4 * 64 + v4) :: bs)
    | _, _ => Except.error ("binascii.Error: Invalid base64-encoded string")
  | _ => Except.error ("binascii.Error: Incorrect padding")

/-- base64.b64decode in its default non-validating mode: characters
outside the alphabet and padding are discarded, then the length must
be a multiple of four. -/
def b64decode (s : List Char) : Except String (List Nat) :=
  b64decodeGroups (s.filter (fun c => (b64val c).isSome || c = '='))

/-- str.split on a comma: every occurrence separates fields, so the
result has one more element than the number of commas. -/
def pySplit : List Char → List (List Char)
  | [] => [[]]
  | c :: rest =>
    if c = ',' then [] :: pySplit rest
    else
      match pySplit rest with
      | r :: rs => (c :: r) :: rs
      | [] => [[c]]

/-- Lines 256-257 of the source: when the base64 payload contains a
comma the handler keeps element 1 of the comma split (the field
between the first and second comma), otherwise the whole string. -/
def selectPayload (s : List Char) : List Char :=
  if (',') ∈ s then (pySplit s).getD 1 [] else s

/-- The body of POST /analyze. -/
structure AnalysisRequest where
  image_base64 : List Char
  language : String

/-- The process environment of one /analyze request: whether a Gemini
credential is configured, the external vendor call (from prompt and
image bytes to reply text or a raised error), and the random draws
the fallback generator would consume. -/
structure AnalyzeEnv where
  geminiConfigured : Bool
  vendor : String → List Nat → Except String (List Char)
  draws : FallbackDraws

/-- The configured-model part of the /analyze try block: strip the
data-URL field from the base64 payload, decode it, send prompt and
bytes to the vendor, parse the reply and build the response; any
raised exception is an error value. -/
def vendorPipeline (env : AnalyzeEnv) (req : AnalysisRequest) :
    Except String AnalysisResponse :=
  match b64decode (selectPayload req.image_base64) with
  | Except.error e => Except.error e
  | Except.ok image_bytes =>
    match env.vendor (create_analysis_prompt req.language) image_bytes with
    | Except.error e => Except.error e
    | Except.ok text =>
      match parse_gemini_response text with
      | Except.error e => Except.error e
      | Except.ok analysis => buildParsedResponse analysis

/-- The whole try block of /analyze: with no model configured, the
fallback response with the demo-mode suffix appended to its
description; otherwise the vendor pipeline. -/
def analyzeTry (env : AnalyzeEnv) (req : AnalysisRequest) :
    Except String AnalysisResponse :=
  if env.geminiConfigured then vendorPipeline env req
  else
    match fallbackResponse env.draws with
    | Except.error e => Except.error e
    | Except.ok r =>
      Except.ok
        { r with description :=
            r.description ++ (" (Demo mode - Gemini API not configured)") }

/-- analyze_skin_lesion (POST /analyze): the try block, with every
raised exception caught and turned into the fallback response whose
error field carries the diagnostic; an error value out of this
function would be an unhandled exception, an HTTP 500. -/
def analyze_skin_lesion (env : AnalyzeEnv) (req : AnalysisRequest) :
    Except String AnalysisResponse :=
  match analyzeTry env req with
  | Except.ok r => Except.ok r
  | Except.error e =>
    match fallbackResponse env.draws with
    | Except.error e2 => Except.error e2
    | Except.ok r =>
      Except.ok { r with error := some (("Using fallback: ") ++ e) }

/-- analyze_uploaded_image (POST /analyze-upload): base64-encode the
uploaded bytes and delegate to the /analyze handler. -/
def analyze_uploaded_image (env : AnalyzeEnv) (file : List Nat)
    (language : String) : Except String AnalysisResponse :=
  let image_base64 := b64encode file
  analyze_skin_lesion env { image_base64 := image_base64, language := language }

/-- Modelled from the spec scenario for /analyze-upload: manually
encode the same file to base64 and call /analyze with that string and
the same language. -/
def manualEncodeThenAnalyze (env : AnalyzeEnv) (file : List Nat)
    (language : String) : Except String AnalysisResponse :=
  analyze_skin_lesion env
    { image_base64 := b64encode file, language := language }

/-- The value of fallbackResponse, spelled out: every category draw
divided by its tier's raw total, ai_malignant_prob the normalized
malignant draw, the fixed texts, confidence 0.75 and no error. -/
def fallbackResponseVal (d : FallbackDraws) : AnalysisResponse :=
  let t1 := sumVals (tier1_raw d)
  let t2 := sumVals (tier2_raw d)
  { success := true
    tier1 := ⟨d.fungal / t1, d.inflammatory / t1, d.normal / t1,
              d.malignant / t1, d.benign / t1⟩
    tier2 := ⟨d.melanoma / t2, d.bcc / t2, d.eczema / t2,
              d.atopicDermatitis / t2, d.melanocyticNevi / t2, d.bkl / t2,
              d.psoriasis / t2, d.seborrheicKeratoses / t2, d.tinea / t2,
              d.warts / t2⟩
    ai_malignant_prob := d.malignant / t1
    description :=
      ("Image analysis complete. This is a simulated result for demonstration purposes.")
    recommendations :=
      [("Schedule an appointment with a dermatologist for professional evaluation"),
       ("Monitor the lesion for any changes in size, shape, or color"),
       ("Take regular photos to track progression over time"),
       ("Protect the area from excessive sun exposure")]
    confidence := 0.75
    error := none }

/-- A vendor reply whose tier1 has numeric values of non-zero sum,
one of them negative. -/
def C1cexInput : List Char :=
  String.toList ("\x7b\"tier1\":\x7b\"a\":-1,\"b\":2\x7d,\"tier2\":\x7b\x7d\x7d")

/-- A vendor reply with non-empty numeric tiers of positive sum. -/
def C1okInput : List Char :=
  String.toList ("\x7b\"tier1\":\x7b\"a\":1,\"b\":3\x7d,\"tier2\":\x7b\"c\":2\x7d\x7d")

/-- The parse of C1okInput. -/
def C1okParsed : ParsedAnalysis :=
  { tier1 := [(("a"), (1 : ℚ)/4), (("b"), 3/4)]
    tier2 := [(("c"), (1 : ℚ))]
    description := Json.str ("Analysis complete.")
    recommendations :=
      Json.arr [Json.str ("Consult a dermatologist for professional evaluation.")]
    confidence := 7/10 }

/-- An all-zero tier sub-object. -/
def C2zeroTier : List (String × Json) :=
  [(("x"), Json.num 0), (("y"), Json.num 0)]

/-- The exact scenario input of the spec: preamble, tier1 with two
equal weights, empty tier2, empty description, empty recommendation
list, confidence above one. -/
def C3input : List Char :=
  String.toList
    ("Sure! \x7b\"tier1\":\x7b\"malignant\":2,\"benign\":2\x7d,\"tier2\":\x7b\x7d,\"description\":\"\",\"recommendations\":[],\"confidence\":1.5\x7d")

/-- A reply whose only field is a negative confidence. -/
def C4input : List Char :=
  String.toList ("\x7b\"confidence\":-2\x7d")

/-- The parse of C4input. -/
def C4parsed : ParsedAnalysis :=
  { tier1 := []
    tier2 := []
    description := Json.str ("Analysis complete.")
    recommendations :=
      Json.arr [Json.str ("Consult a dermatologist for professional evaluation.")]
    confidence := 0 }

/-- A reply text with no brace at all. -/
def C5noBrace : List Char := String.toList ("no json here")

/-- Draws at the lower bound of every per-category range. -/
def C6draws : FallbackDraws :=
  ⟨0.05, 0.1, 0.05, 0.1, 0.2, 0.05, 0.05, 0.08, 0.03, 0.08, 0.05, 0.02,
   0.03, 0.02, 0.01⟩

/-- Arbitrary fixed draws for the request-level witnesses. -/
def C7draws : FallbackDraws :=
  ⟨0.1, 0.1, 0.1, 0.1, 0.1, 0.1, 0.1, 0.1, 0.1, 0.1, 0.1, 0.1, 0.1, 0.1, 0.1⟩

/-- An environment with no credential configured. -/
def C7envDemo : AnalyzeEnv :=
  { geminiConfigured := false
    vendor := fun _ _ => Except.error ("never called")
    draws := C7draws }

/-- A configured environment whose vendor call raises. -/
def C7envBoom : AnalyzeEnv :=
  { geminiConfigured := true
    vendor := fun _ _ => Except.error ("boom")
    draws := C7draws }

/-- A request carrying a small valid base64 payload. -/
def C7req : AnalysisRequest :=
  { image_base64 := String.toList ("AAAA"), language := ("en") }

/-- A vendor reply whose tier1 carries the five required keys plus an
extra one, and whose tier2 carries exactly the ten required keys. -/
def C9text : List Char :=
  String.toList
    ("\x7b\"tier1\":\x7b\"fungal\":1,\"inflammatory\":1,\"normal\":1,\"malignant\":1,\"benign\":1,\"extra\":5\x7d,\"tier2\":\x7b\"melanoma\":1,\"bcc\":1,\"eczema\":1,\"atopicDermatitis\":1,\"melanocyticNevi\":1,\"bkl\":1,\"psoriasis\":1,\"seborrheicKeratoses\":1,\"tinea\":1,\"warts\":1\x7d,\"description\":\"d\",\"recommendations\":[\"r\"],\"confidence\":0.5\x7d")

/-- A configured environment answering every request with C9text. -/
def C9env : AnalyzeEnv :=
  { geminiConfigured := true
    vendor := fun _ _ => Except.ok C9text
    draws := C7draws }

/-- A configured environment whose vendor call raises, for the
fallback conjunct of the amended claim. -/
def C9envBoom : AnalyzeEnv :=
  { geminiConfigured := true
    vendor := fun _ _ => Except.error ("boom9")
    draws := C7draws }

/-- A request carrying a small valid base64 payload. -/
def C9req : AnalysisRequest :=
  { image_base64 := String.toList ("AAAA"), language := ("en") }

theorem fallbackResponse_eq (d : FallbackDraws) :
    fallbackResponse d = Except.ok (fallbackResponseVal d) := by
  with_unfolding_all rfl

theorem tierNums_length :
    ∀ (kvs : List (String × Json)) (qs : List ℚ),
      tierNums kvs = some qs → kvs.length = qs.length := by
  intro kvs
  induction kvs with
  | nil => intro qs h; simp [tierNums] at h; simp [h]
  | cons kv rest ih =>
    intro qs h
    simp only [tierNums] at h
    cases hq : jsonToNum kv.2 with
    | none => rw [hq] at h; simp at h
    | some q =>
      rw [hq] at h
      cases hr : tierNums rest with
      | none => rw [hr] at h; simp at h
      | some qs' =>
        rw [hr] at h
        simp at h
        subst h
        simp [ih qs' hr]

theorem sum_map_div (qs : List ℚ) (T : ℚ) :
    (qs.map (fun q => q / T)).sum = qs.sum / T := by
  induction qs with
  | nil => simp
  | cons q rest ih => simp [ih, add_div]

theorem map_snd_zipWith_div (T : ℚ) :
    ∀ (kvs : List (String × Json)) (qs : List ℚ), kvs.length = qs.length →
      (List.zipWith (fun (kv : String × Json) q => (kv.1, q / T)) kvs qs).map
          Prod.snd = qs.map (fun q => q / T) := by
  intro kvs
  induction kvs with
  | nil => intro qs h; cases qs <;> simp_all
  | cons kv rest ih =>
    intro qs h
    cases qs with
    | nil => simp at h
    | cons q qs' => simp_all

theorem normalizeTier_ok (kvs : List (String × Json)) (qs : List ℚ)
    (h : tierNums kvs = some qs) :
    normalizeTier kvs = Except.ok
      (List.zipWith
        (fun (kv : String × Json) q => (kv.1, q / (if qs.sum = 0 then 1 else qs.sum)))
        kvs qs) := by
  simp [normalizeTier, h]

theorem normalizeTier_sum_bounds (kvs : List (String × Json)) (qs : List ℚ)
    (out : List (String × ℚ)) (h : tierNums kvs = some qs)
    (hnn : ∀ q ∈ qs, 0 ≤ q) (hnz : qs.sum ≠ 0)
    (hout : normalizeTier kvs = Except.ok out) :
    sumVals out = 1 ∧ ∀ kv ∈ out, 0 ≤ kv.2 ∧ kv.2 ≤ 1 := by
  rw [normalizeTier_ok kvs qs h] at hout
  have hlen := tierNums_length kvs qs h
  have hpos : 0 < qs.sum :=
    lt_of_le_of_ne (List.sum_nonneg hnn) (Ne.symm hnz)
  have hout' : out = List.zipWith
      (fun (kv : String × Json) q => (kv.1, q / qs.sum)) kvs qs := by
    have := Except.ok.inj hout
    rw [← this, if_neg hnz]
  constructor
  · rw [hout']
    unfold sumVals
    rw [map_snd_zipWith_div qs.sum kvs qs hlen, sum_map_div, div_self hnz]
  · intro kv hkv
    have hsnd : kv.2 ∈ (List.zipWith
        (fun (kv : String × Json) q => (kv.1, q / qs.sum)) kvs qs).map Prod.snd := by
      rw [← hout']
      exact List.mem_map_of_mem Prod.snd hkv
    rw [map_snd_zipWith_div qs.sum kvs qs hlen] at hsnd
    obtain ⟨q, hq, hq2⟩ := List.mem_map.mp hsnd
    constructor
    · rw [← hq2]; exact div_nonneg (hnn q hq) hpos.le
    · rw [← hq2]
      rw [div_le_one hpos]
      exact List.single_le_sum hnn q hq

theorem parse_ok_parts (s : List Char) (p : ParsedAnalysis)
    (hp : parse_gemini_response s = Except.ok p) :
    ∃ data kvs1 kvs2,
      extractedJson s = some data ∧
      getTierObj data ("tier1") = Except.ok kvs1 ∧
      getTierObj data ("tier2") = Except.ok kvs2 ∧
      normalizeTier kvs1 = Except.ok p.tier1 ∧
      normalizeTier kvs2 = Except.ok p.tier2 ∧
      getConfidence data = Except.ok p.confidence := by
  obtain ⟨pt1, pt2, pd, pr, pc⟩ := p
  cases h1 : extractJsonSpan s with
  | none => simp [parse_gemini_response, h1] at hp
  | some span =>
    cases h2 : jsonParse span with
    | none => simp [parse_gemini_response, h1, h2] at hp
    | some data =>
      cases h3 : getTierObj data ("tier1") with
      | error e => simp [parse_gemini_response, h1, h2, h3] at hp
      | ok kvs1 =>
        cases h4 : normalizeTier kvs1 with
        | error e => simp [parse_gemini_response, h1, h2, h3, h4] at hp
        | ok t1 =>
          cases h5 : getTierObj data ("tier2") with
          | error e => simp [parse_gemini_response, h1, h2, h3, h4, h5] at hp
          | ok kvs2 =>
            cases h6 : normalizeTier kvs2 with
            | error e => simp [parse_gemini_response, h1, h2, h3, h4, h5, h6] at hp
            | ok t2 =>
              cases h7 : getConfidence data with
              | error e =>
                simp [parse_gemini_response, h1, h2, h3, h4, h5, h6, h7] at hp
              | ok conf =>
                simp [parse_gemini_response, h1, h2, h3, h4, h5, h6, h7] at hp
                obtain ⟨hq1, hq2, _, _, hq5⟩ := hp
                refine ⟨data, kvs1, kvs2, ?_, h3, h5, ?_, ?_, ?_⟩
                · simp [extractedJson, h1, h2]
                · rw [← hq1]; exact h4
                · rw [← hq2]; exact h6
                · rw [← hq5]; exact h7

theorem tierNums_zero :
    ∀ kvs : List (String × Json), (∀ kv ∈ kvs, jsonToNum kv.2 = some 0) →
      tierNums kvs = some (kvs.map (fun _ => (0 : ℚ)))
  | [], _ => rfl
  | kv :: rest, h => by
    simp only [tierNums, h kv (List.mem_cons_self kv rest),
      tierNums_zero rest (fun x hx => h x (List.mem_cons_of_mem kv hx)),
      List.map_cons]

theorem map_zero_sum :
    ∀ kvs : List (String × Json), ((kvs.map (fun _ => (0 : ℚ))).sum) = 0
  | [] => rfl
  | kv :: rest => by simp [map_zero_sum rest]

theorem zipWith_map_zero :
    ∀ kvs : List (String × Json),
      List.zipWith (fun (kv : String × Json) q => (kv.1, q / (1 : ℚ))) kvs
          (kvs.map (fun _ => (0 : ℚ)))
        = kvs.map (fun kv => (kv.1, (0 : ℚ)))
  | [] => rfl
  | kv :: rest => by
    simp only [List.map_cons, List.zipWith_cons_cons, zero_div]
    rw [zipWith_map_zero rest]

/-- C1 (amended): for every vendor reply parsed by
parse_gemini_response whose tier1 (respectively tier2) sub-object is
non-empty with numeric, non-negative values and a non-zero sum, the
normalized tier's values sum exactly to 1 and every normalized value
lies in [0, 1].  The amendment adds non-negativity of the raw values,
without which the unit-interval part of the original claim is false
(see the counterexample). -/
theorem C1_tier_normalization_sums_to_one (s : List Char) (p : ParsedAnalysis)
    (hp : parse_gemini_response s = Except.ok p) :
    (∀ data kvs qs, extractedJson s = some data →
        getTierObj data ("tier1") = Except.ok kvs →
        tierNums kvs = some qs → kvs ≠ [] →
        (∀ q ∈ qs, 0 ≤ q) → qs.sum ≠ 0 →
        sumVals p.tier1 = 1 ∧ ∀ kv ∈ p.tier1, 0 ≤ kv.2 ∧ kv.2 ≤ 1)
  ∧ (∀ data kvs qs, extractedJson s = some data →
        getTierObj data ("tier2") = Except.ok kvs →
        tierNums kvs = some qs → kvs ≠ [] →
        (∀ q ∈ qs, 0 ≤ q) → qs.sum ≠ 0 →
        sumVals p.tier2 = 1 ∧ ∀ kv ∈ p.tier2, 0 ≤ kv.2 ∧ kv.2 ≤ 1) := by
  obtain ⟨data', kvs1, kvs2, hd, ht1, ht2, hn1, hn2, hc⟩ := parse_ok_parts s p hp
  constructor
  · intro data kvs qs hdata htier hnum _ hnn hnz
    rw [hd] at hdata
    obtain rfl := Option.some.inj hdata
    rw [ht1] at htier
    obtain rfl := Except.ok.inj htier
    exact normalizeTier_sum_bounds _ qs p.tier1 hnum hnn hnz hn1
  · intro data kvs qs hdata htier hnum _ hnn hnz
    rw [hd] at hdata
    obtain rfl := Option.some.inj hdata
    rw [ht2] at htier
    obtain rfl := Except.ok.inj htier
    exact normalizeTier_sum_bounds _ qs p.tier2 hnum hnn hnz hn2

/-- Witness for C1: a concrete reply with positive tier values, whose
normalized tiers sum to 1 with all values in the unit interval. -/
theorem C1_tier_normalization_witness :
    (sumVals C1okParsed.tier1 = 1 ∧ ∀ kv ∈ C1okParsed.tier1, 0 ≤ kv.2 ∧ kv.2 ≤ 1)
  ∧ (sumVals C1okParsed.tier2 = 1 ∧ ∀ kv ∈ C1okParsed.tier2, 0 ≤ kv.2 ∧ kv.2 ≤ 1) := by
  have h := C1_tier_normalization_sums_to_one C1okInput C1okParsed
    (by with_unfolding_all rfl)
  constructor
  · exact h.1
      (Json.obj [(("tier1"), Json.obj [(("a"), Json.num 1), (("b"), Json.num 3)]),
                 (("tier2"), Json.obj [(("c"), Json.num 2)])])
      [(("a"), Json.num 1), (("b"), Json.num 3)] [1, 3]
      (by with_unfolding_all rfl) (by with_unfolding_all rfl)
      (by with_unfolding_all rfl) (by simp)
      (by intro q hq; simp at hq; rcases hq with rfl | rfl <;> norm_num)
      (by norm_num)
  · exact h.2
      (Json.obj [(("tier1"), Json.obj [(("a"), Json.num 1), (("b"), Json.num 3)]),
                 (("tier2"), Json.obj [(("c"), Json.num 2)])])
      [(("c"), Json.num 2)] [2]
      (by with_unfolding_all rfl) (by with_unfolding_all rfl)
      (by with_unfolding_all rfl) (by simp)
      (by intro q hq; simp at hq; rcases hq with rfl; norm_num)
      (by norm_num)

/-- Counterexample to C1 as stated: this reply's tier1 is non-empty
with numeric values summing to 1 (non-zero), yet the normalized tier
keeps the negative value -1, which is not in [0, 1]. -/
theorem C1_counterexample :
    parse_gemini_response C1cexInput = Except.ok
      { tier1 := [(("a"), (-1 : ℚ)), (("b"), 2)]
        tier2 := []
        description := Json.str ("Analysis complete.")
        recommendations :=
          Json.arr [Json.str ("Consult a dermatologist for professional evaluation.")]
        confidence := 7/10 }
  ∧ tierNums [(("a"), Json.num (-1)), (("b"), Json.num 2)] = some [-1, 2]
  ∧ ([(-1 : ℚ), 2].sum ≠ 0)
  ∧ ¬ (∀ kv ∈ [(("a"), (-1 : ℚ)), (("b"), (2 : ℚ))], 0 ≤ kv.2 ∧ kv.2 ≤ 1) := by
  refine ⟨by with_unfolding_all rfl, by with_unfolding_all rfl, by norm_num, ?_⟩
  intro h
  have := (h (("a"), (-1 : ℚ)) (by simp)).1
  norm_num at this

/-- C2: a tier sub-object all of whose values are numerically zero —
and in particular an empty one — is left unchanged by the
normalization in parse_gemini_response: the zero total is replaced by
1, every value is divided by 1, and no error is raised on that
branch. -/
theorem C2_zero_tier_unchanged (kvs : List (String × Json))
    (h : ∀ kv ∈ kvs, jsonToNum kv.2 = some 0) :
    normalizeTier kvs = Except.ok (kvs.map (fun kv => (kv.1, (0 : ℚ)))) := by
  rw [normalizeTier_ok kvs _ (tierNums_zero kvs h)]
  rw [if_pos (map_zero_sum kvs)]
  exact congrArg Except.ok (zipWith_map_zero kvs)

/-- Witness for C2: a two-entry all-zero tier and the empty tier both
normalize without failure to themselves. -/
theorem C2_zero_tier_witness :
    normalizeTier C2zeroTier = Except.ok [(("x"), (0 : ℚ)), (("y"), (0 : ℚ))]
  ∧ normalizeTier [] = Except.ok [] := by
  constructor
  · have h := C2_zero_tier_unchanged C2zeroTier
      (by intro kv hkv; simp [C2zeroTier] at hkv; rcases hkv with rfl | rfl <;> rfl)
    simpa [C2zeroTier] using h
  · exact C2_zero_tier_unchanged [] (by intro kv hkv; simp at hkv)

/-- Counterexample to C3 as stated: on the exact scenario input, the
parsed result keeps the present-but-empty description and the
present-but-empty recommendation list — dict.get only substitutes its
default when the key is absent — so the description is not
"Analysis complete." and the recommendations are not the one-element
default list; tier1 and the clamped confidence are as claimed. -/
theorem C3_scenario_counterexample :
    parse_gemini_response C3input = Except.ok
      { tier1 := [(("malignant"), (1 : ℚ)/2), (("benign"), 1/2)]
        tier2 := []
        description := Json.str ("")
        recommendations := Json.arr []
        confidence := 1 }
  ∧ Json.str ("") ≠ Json.str ("Analysis complete.")
  ∧ Json.arr ([] : List Json) ≠
      Json.arr [Json.str ("Consult a dermatologist for professional evaluation.")] := by
  refine ⟨by with_unfolding_all rfl, ?_, ?_⟩
  · intro h
    have h2 := Json.str.inj h
    exact absurd h2 (by decide)
  · intro h
    have h2 := Json.arr.inj h
    simp at h2

/-- C3 (amended): on the exact scenario input, parse_gemini_response
returns tier1 = (malignant 0.5, benign 0.5), tier2 unchanged empty,
confidence clamped to 1, description equal to the parsed empty string
(kept, not defaulted), and recommendations equal to the parsed empty
list (kept, not defaulted). -/
theorem C3_scenario_parse :
    parse_gemini_response C3input = Except.ok
      { tier1 := [(("malignant"), (1 : ℚ)/2), (("benign"), 1/2)]
        tier2 := []
        description := Json.str ("")
        recommendations := Json.arr []
        confidence := 1 } := by
  with_unfolding_all rfl

theorem getConfidence_bounds (data : Json) (r : ℚ)
    (h : getConfidence data = Except.ok r) : 0 ≤ r ∧ r ≤ 1 := by
  cases hg : objGet data ("confidence") with
  | none =>
    simp only [getConfidence, hg, Except.ok.injEq] at h
    rw [← h]
    exact ⟨le_min zero_le_one (le_max_left 0 (7/10)), min_le_left 1 (max 0 (7/10))⟩
  | some v =>
    cases hv : jsonToNum v with
    | none => simp [getConfidence, hg, hv] at h
    | some q =>
      simp only [getConfidence, hg, hv, Except.ok.injEq] at h
      rw [← h]
      exact ⟨le_min zero_le_one (le_max_left 0 q), min_le_left 1 (max 0 q)⟩

/-- C4: the confidence produced from a parsed JSON object is always
in [0, 1]: a numeric confidence above 1 is clamped to 1, below 0 to
0, a value already in [0, 1] is returned unchanged, an absent
confidence key yields the default 0.7, and whenever
parse_gemini_response succeeds the returned confidence is in [0, 1]. -/
theorem C4_confidence_clamped (data : Json) (s : List Char) (p : ParsedAnalysis) :
    (∀ q : ℚ, objGet data ("confidence") = some (Json.num q) →
        ((1 < q → getConfidence data = Except.ok 1)
       ∧ (q < 0 → getConfidence data = Except.ok 0)
       ∧ (0 ≤ q → q ≤ 1 → getConfidence data = Except.ok q)))
  ∧ (objGet data ("confidence") = none → getConfidence data = Except.ok (7/10))
  ∧ (parse_gemini_response s = Except.ok p → 0 ≤ p.confidence ∧ p.confidence ≤ 1) := by
  refine ⟨?_, ?_, ?_⟩
  · intro q hq
    have hgc : getConfidence data = Except.ok (min 1 (max 0 q)) := by
      unfold getConfidence
      rw [hq]
      rfl
    refine ⟨fun h1 => ?_, fun h1 => ?_, fun h0 h1 => ?_⟩
    · rw [hgc]
      congr 1
      rw [max_eq_right (le_trans zero_le_one h1.le), min_eq_left h1.le]
    · rw [hgc]
      congr 1
      rw [max_eq_left h1.le, min_eq_right zero_le_one]
    · rw [hgc]
      congr 1
      rw [max_eq_right h0, min_eq_right h1]
  · intro h
    unfold getConfidence
    rw [h]
    rw [max_eq_right (by norm_num), min_eq_right (by norm_num)]
  · intro hp
    obtain ⟨data', _, _, _, _, _, _, _, hc⟩ := parse_ok_parts s p hp
    exact getConfidence_bounds data' p.confidence hc

/-- Witness for C4: a confidence of 5 clamps to 1, an absent
confidence defaults to 0.7, and the parse of a reply carrying
confidence -2 returns a confidence (0) inside [0, 1]. -/
theorem C4_confidence_witness :
    getConfidence (Json.obj [(("confidence"), Json.num 5)]) = Except.ok 1
  ∧ getConfidence (Json.obj []) = Except.ok (7/10)
  ∧ (0 ≤ C4parsed.confidence ∧ C4parsed.confidence ≤ 1) := by
  have h1 := C4_confidence_clamped (Json.obj [(("confidence"), Json.num 5)])
    C4input C4parsed
  have h2 := C4_confidence_clamped (Json.obj []) C4input C4parsed
  refine ⟨?_, ?_, ?_⟩
  · exact ((h1.1 5 (by with_unfolding_all rfl)).1 (by norm_num))
  · exact h2.2.1 (by with_unfolding_all rfl)
  · exact h1.2.2 (by with_unfolding_all rfl)

theorem sumVals_map_div (T : ℚ) :
    ∀ l : List (String × ℚ),
      sumVals (l.map (fun kv => (kv.1, kv.2 / T))) = sumVals l / T
  | [] => by simp [sumVals]
  | kv :: rest => by
    simp only [List.map_cons, sumVals, List.sum_cons, add_div]
    have := sumVals_map_div T rest
    simp only [sumVals] at this
    rw [this]

/-- C6: for every run of get_fallback_analysis in which each random
draw lies within its documented per-category range, the returned
tier1 and tier2 distributions each sum exactly to 1, the confidence
is exactly 0.75, and the operation cannot fail — in particular the
response assembled from it validates. -/
theorem C6_fallback_sums_to_one (d : FallbackDraws) (h : drawsInRange d) :
    sumVals (get_fallback_analysis d).tier1 = 1
  ∧ sumVals (get_fallback_analysis d).tier2 = 1
  ∧ (get_fallback_analysis d).confidence = 0.75
  ∧ fallbackResponse d = Except.ok (fallbackResponseVal d) := by
  obtain ⟨hf1, hf2, hi1, hi2, hn1, hn2, hm1, hm2, hb1, hb2,
    hme1, hme2, hbc1, hbc2, hec1, hec2, had1, had2, hmn1, hmn2,
    hbk1, hbk2, hps1, hps2, hsk1, hsk2, hti1, hti2, hwa1, hwa2⟩ := h
  have ht1 : sumVals (tier1_raw d) ≠ 0 := by
    have : (0 : ℚ) < sumVals (tier1_raw d) := by
      simp only [sumVals, tier1_raw, List.map_cons, List.map_nil,
        List.sum_cons, List.sum_nil]
      linarith
    exact this.ne.symm
  have ht2 : sumVals (tier2_raw d) ≠ 0 := by
    have : (0 : ℚ) < sumVals (tier2_raw d) := by
      simp only [sumVals, tier2_raw, List.map_cons, List.map_nil,
        List.sum_cons, List.sum_nil]
      linarith
    exact this.ne.symm
  refine ⟨?_, ?_, rfl, fallbackResponse_eq d⟩
  · show sumVals ((tier1_raw d).map
      (fun kv => (kv.1, kv.2 / sumVals (tier1_raw d)))) = 1
    rw [sumVals_map_div, div_self ht1]
  · show sumVals ((tier2_raw d).map
      (fun kv => (kv.1, kv.2 / sumVals (tier2_raw d)))) = 1
    rw [sumVals_map_div, div_self ht2]

/-- Witness for C6 at draws fixed to each range's lower bound. -/
theorem C6_fallback_witness :
    sumVals (get_fallback_analysis C6draws).tier1 = 1
  ∧ sumVals (get_fallback_analysis C6draws).tier2 = 1
  ∧ (get_fallback_analysis C6draws).confidence = 0.75
  ∧ fallbackResponse C6draws = Except.ok (fallbackResponseVal C6draws) :=
  C6_fallback_sums_to_one C6draws
    (by unfold drawsInRange C6draws; norm_num)

/-- C7: every failure of the /analyze pipeline yields a successful
response, never an HTTP error.  With no credential configured the
response has success = true, a null error field, and a description
ending in " (Demo mode - Gemini API not configured)"; when the
configured pipeline raises (vendor error, bad payload or malformed
reply), the response has success = true and a non-null error field
carrying the diagnostic. -/
theorem C7_failures_are_absorbed (env : AnalyzeEnv) (req : AnalysisRequest) :
    (env.geminiConfigured = false →
      ∃ r, analyze_skin_lesion env req = Except.ok r ∧ r.success = true ∧
        r.error = none ∧
        ∃ pre, r.description = pre ++ (" (Demo mode - Gemini API not configured)"))
  ∧ (∀ e, env.geminiConfigured = true → vendorPipeline env req = Except.error e →
      ∃ r, analyze_skin_lesion env req = Except.ok r ∧ r.success = true ∧
        r.error = some (("Using fallback: ") ++ e)) := by
  constructor
  · intro hcfg
    have htry : analyzeTry env req = Except.ok
        { fallbackResponseVal env.draws with
          description := (fallbackResponseVal env.draws).description ++
            (" (Demo mode - Gemini API not configured)") } := by
      unfold analyzeTry
      rw [hcfg]
      simp only [Bool.false_eq_true, if_false, fallbackResponse_eq]
    refine ⟨{ fallbackResponseVal env.draws with
        description := (fallbackResponseVal env.draws).description ++
          (" (Demo mode - Gemini API not configured)") },
      ?_, rfl, rfl, ⟨(fallbackResponseVal env.draws).description, rfl⟩⟩
    simp only [analyze_skin_lesion, htry]
  · intro e hcfg hpipe
    have htry : analyzeTry env req = Except.error e := by
      unfold analyzeTry
      rw [hcfg]
      simpa using hpipe
    refine ⟨{ fallbackResponseVal env.draws with
        error := some (("Using fallback: ") ++ e) }, ?_, rfl, rfl⟩
    simp only [analyze_skin_lesion, htry, fallbackResponse_eq]

/-- Witness for C7: an unconfigured environment and a configured
environment whose vendor raises, both on a small valid request. -/
theorem C7_failures_witness :
    (∃ r, analyze_skin_lesion C7envDemo C7req = Except.ok r ∧ r.success = true ∧
      r.error = none ∧
      ∃ pre, r.description = pre ++ (" (Demo mode - Gemini API not configured)"))
  ∧ (∃ r, analyze_skin_lesion C7envBoom C7req = Except.ok r ∧ r.success = true ∧
      r.error = some (("Using fallback: ") ++ ("boom"))) := by
  constructor
  · exact (C7_failures_are_absorbed C7envDemo C7req).1 rfl
  · exact (C7_failures_are_absorbed C7envBoom C7req).2 ("boom") rfl
      (by with_unfolding_all rfl)

theorem pySplit_no_comma : ∀ s : List Char, (',') ∉ s → pySplit s = [s]
  | [], _ => rfl
  | c :: rest, h => by
    have hc : c ≠ (',') := fun he => h (by rw [← he]; exact List.mem_cons_self c _)
    have hr : (',') ∉ rest := fun hm => h (List.mem_cons_of_mem c hm)
    simp only [pySplit, if_neg hc, pySplit_no_comma rest hr]

theorem pySplit_append : ∀ (a r : List Char), (',') ∉ a →
    pySplit (a ++ (',') :: r) = a :: pySplit r
  | [], r, _ => by simp [pySplit]
  | c :: t, r, h => by
    have hc : c ≠ (',') := fun he => h (by rw [← he]; exact List.mem_cons_self c _)
    have ht : (',') ∉ t := fun hm => h (List.mem_cons_of_mem c hm)
    rw [List.cons_append]
    simp only [pySplit, if_neg hc, List.append_eq]
    rw [pySplit_append t r ht]

/-- C10: when the image_base64 string contains a comma, only the
field between the first and second comma (element 1 of the comma
split — not the whole remainder after the first comma) is kept as the
payload handed to base64 decoding; with a single comma that field
runs to the end, and with no comma the whole string is kept. -/
theorem C10_payload_field_selection (a b c s : List Char) :
    ((',') ∉ a → (',') ∉ b →
      selectPayload (a ++ (',') :: (b ++ (',') :: c)) = b)
  ∧ ((',') ∉ a → (',') ∉ b → selectPayload (a ++ (',') :: b) = b)
  ∧ ((',') ∉ s → selectPayload s = s) := by
  refine ⟨?_, ?_, ?_⟩
  · intro ha hb
    have hmem : (',') ∈ a ++ (',') :: (b ++ (',') :: c) :=
      List.mem_append_right a (List.mem_cons_self _ _)
    unfold selectPayload
    rw [if_pos hmem, pySplit_append a _ ha, pySplit_append b c hb]
    rfl
  · intro ha hb
    have hmem : (',') ∈ a ++ (',') :: b :=
      List.mem_append_right a (List.mem_cons_self _ _)
    unfold selectPayload
    rw [if_pos hmem, pySplit_append a b ha, pySplit_no_comma b hb]
    rfl
  · intro hs
    unfold selectPayload
    rw [if_neg hs]

/-- Witness for C10: a data-URL-like payload with two commas keeps
only the middle field, and a comma-free payload is kept whole. -/
theorem C10_payload_witness :
    selectPayload ((String.toList ("data:image/png;base64")) ++ (',') ::
        ((String.toList ("AAAA")) ++ (',') :: (String.toList ("junk")))) =
      String.toList ("AAAA")
  ∧ selectPayload (String.toList ("plain")) = String.toList ("plain") := by
  constructor
  · exact (C10_payload_field_selection (String.toList ("data:image/png;base64"))
      (String.toList ("AAAA")) (String.toList ("junk")) []).1
      (by decide) (by decide)
  · exact (C10_payload_field_selection [] [] [] (String.toList ("plain"))).2.2
      (by decide)

theorem sextetChar_ne_comma (n : Nat) : sextetChar n ≠ (',') := by
  unfold sextetChar
  rw [List.getD_eq_getElem?_getD]
  cases h : b64alphabet[n]? with
  | none => decide
  | some c =>
    have hc : c ∈ b64alphabet := List.getElem?_mem h
    intro he
    simp only [Option.getD_some] at he
    rw [he] at hc
    exact absurd hc (by decide)

theorem b64encode_no_comma : ∀ bs : List Nat, (',') ∉ b64encode bs
  | [] => by simp [b64encode]
  | [a] => by
    intro hmem
    simp only [b64encode, List.mem_cons, List.not_mem_nil, or_false] at hmem
    rcases hmem with h | h | h | h
    · exact sextetChar_ne_comma _ h.symm
    · exact sextetChar_ne_comma _ h.symm
    · exact absurd h (by decide)
    · exact absurd h (by decide)
  | [a, b] => by
    intro hmem
    simp only [b64encode, List.mem_cons, List.not_mem_nil, or_false] at hmem
    rcases hmem with h | h | h | h
    · exact sextetChar_ne_comma _ h.symm
    · exact sextetChar_ne_comma _ h.symm
    · exact sextetChar_ne_comma _ h.symm
    · exact absurd h (by decide)
  | a :: b :: c :: rest => by
    intro hmem
    simp only [b64encode, List.mem_cons] at hmem
    rcases hmem with h | h | h | h | h
    · exact sextetChar_ne_comma _ h.symm
    · exact sextetChar_ne_comma _ h.symm
    · exact sextetChar_ne_comma _ h.symm
    · exact sextetChar_ne_comma _ h.symm
    · exact b64encode_no_comma rest h

/-- C8: /analyze-upload base64-encodes the uploaded bytes and
delegates to the /analyze handler, producing exactly the result of
calling /analyze with the byte-identical base64 encoding of the file
and the same language; moreover that encoding never contains a comma,
so the /analyze handler decodes the delegated payload whole. -/
theorem C8_upload_delegates (env : AnalyzeEnv) (file : List Nat)
    (language : String) :
    analyze_uploaded_image env file language =
      manualEncodeThenAnalyze env file language
  ∧ selectPayload (b64encode file) = b64encode file := by
  refine ⟨rfl, ?_⟩
  unfold selectPayload
  rw [if_neg (b64encode_no_comma file)]

theorem firstIdx_append : ∀ (a t : List Char) (ch : Char), ch ∉ a →
    firstIdx ch (a ++ ch :: t) = some a.length
  | [], t, ch, _ => by simp [firstIdx]
  | c :: a', t, ch, h => by
    have hc : c ≠ ch := fun he => h (by rw [← he]; exact List.mem_cons_self c _)
    have ha' : ch ∉ a' := fun hm => h (List.mem_cons_of_mem c hm)
    rw [List.cons_append]
    simp only [firstIdx, if_neg hc, List.append_eq]
    rw [firstIdx_append a' t ch ha']
    simp

theorem lastIdx_not_mem : ∀ (s : List Char) (ch : Char), ch ∉ s →
    lastIdx ch s = none
  | [], _, _ => rfl
  | x :: t, ch, h => by
    have hx : x ≠ ch := fun he => h (by rw [← he]; exact List.mem_cons_self x _)
    have ht : ch ∉ t := fun hm => h (List.mem_cons_of_mem x hm)
    simp only [lastIdx, lastIdx_not_mem t ch ht, if_neg hx]

theorem lastIdx_append : ∀ (u c : List Char) (ch : Char), ch ∉ c →
    lastIdx ch (u ++ ch :: c) = some u.length
  | [], c, ch, h => by
    simp [lastIdx, lastIdx_not_mem c ch h]
  | x :: u', c, ch, h => by
    rw [List.cons_append]
    simp only [lastIdx, List.append_eq]
    rw [lastIdx_append u' c ch h]
    simp

theorem take_len_succ_append :
    ∀ (b c2 : List Char), (b ++ c2).take (b.length + 1) = b ++ c2.take 1
  | [], c2 => by simp
  | x :: b', c2 => by
    simp only [List.cons_append, List.length_cons, List.take_succ_cons]
    rw [take_len_succ_append b' c2]

theorem extractJsonSpan_decomp (a b c : List Char)
    (ha : lbrace ∉ a) (hc : rbrace ∉ c) :
    extractJsonSpan (a ++ lbrace :: (b ++ rbrace :: c)) =
      some (lbrace :: (b ++ [rbrace])) := by
  have h1 : firstIdx lbrace (a ++ lbrace :: (b ++ rbrace :: c)) = some a.length :=
    firstIdx_append a (b ++ rbrace :: c) lbrace ha
  have h2 : lastIdx rbrace (a ++ lbrace :: (b ++ rbrace :: c)) =
      some (a.length + 1 + b.length) := by
    have e : a ++ lbrace :: (b ++ rbrace :: c) = (a ++ lbrace :: b) ++ rbrace :: c := by
      simp
    rw [e, lastIdx_append (a ++ lbrace :: b) c rbrace hc]
    simp [List.length_append]
    omega
  simp only [extractJsonSpan, h1, h2]
  rw [if_pos (by omega)]
  have hdrop : (a ++ lbrace :: (b ++ rbrace :: c)).drop a.length =
      lbrace :: (b ++ rbrace :: c) := List.drop_left a _
  rw [hdrop]
  have harith : a.length + 1 + b.length - a.length + 1 = b.length + 1 + 1 := by omega
  rw [harith]
  rw [List.take_succ_cons]
  have : (b ++ rbrace :: c).take (b.length + 1) = b ++ (rbrace :: c).take 1 :=
    take_len_succ_append b (rbrace :: c)
  rw [this]
  rfl

theorem firstIdx_decomp : ∀ (s : List Char) (ch : Char) (i : Nat),
    firstIdx ch s = some i → ∃ u v, s = u ++ ch :: v ∧ u.length = i
  | [], ch, i, h => by simp [firstIdx] at h
  | x :: t, ch, i, h => by
    by_cases hx : x = ch
    · refine ⟨[], t, by simp [hx], ?_⟩
      simp only [firstIdx, if_pos hx, Option.some.injEq] at h
      simp [← h]
    · simp only [firstIdx, if_neg hx, Option.map_eq_some'] at h
      obtain ⟨j, hj, hji⟩ := h
      obtain ⟨u, v, huv, hul⟩ := firstIdx_decomp t ch j hj
      exact ⟨x :: u, v, by rw [huv, List.cons_append], by simp [hul, ← hji]⟩

theorem lastIdx_decomp : ∀ (s : List Char) (ch : Char) (j : Nat),
    lastIdx ch s = some j → ∃ u v, s = u ++ ch :: v ∧ u.length = j
  | [], ch, j, h => by simp [lastIdx] at h
  | x :: t, ch, j, h => by
    cases ht : lastIdx ch t with
    | some j' =>
      simp only [lastIdx, ht, Option.some.injEq] at h
      obtain ⟨u, v, huv, hul⟩ := lastIdx_decomp t ch j' ht
      exact ⟨x :: u, v, by rw [huv, List.cons_append], by simp [hul, ← h]⟩
    | none =>
      simp only [lastIdx, ht] at h
      by_cases hx : x = ch
      · rw [if_pos hx] at h
        refine ⟨[], t, by simp [hx], ?_⟩
        simp only [Option.some.injEq] at h
        simp [← h]
      · rw [if_neg hx] at h
        cases h

theorem exists_decomp_of_spans (s : List Char) (i j : Nat)
    (h1 : firstIdx lbrace s = some i) (h2 : lastIdx rbrace s = some j)
    (hij : i < j) :
    ∃ a b c : List Char, s = a ++ lbrace :: (b ++ rbrace :: c) := by
  obtain ⟨u1, v1, rfl, hu1⟩ := firstIdx_decomp s lbrace i h1
  obtain ⟨u2, v2, heq, hu2⟩ := lastIdx_decomp _ rbrace j h2
  rcases List.append_eq_append_iff.mp heq with ⟨m, hm1, hm2⟩ | ⟨m, hm1, hm2⟩
  · cases m with
    | nil =>
      simp only [List.nil_append] at hm2
      injection hm2 with hbr hv
      exact absurd hbr (by decide)
    | cons x m' =>
      rw [List.cons_append] at hm2
      injection hm2 with hx hv
      refine ⟨u1, m', v2, ?_⟩
      rw [hv]
  · have hlen : u2.length ≤ u1.length := by rw [hm1]; simp
    omega

theorem extractJsonSpan_none_of_no_decomp (s : List Char)
    (h : ∀ a b c : List Char, s ≠ a ++ lbrace :: (b ++ rbrace :: c)) :
    extractJsonSpan s = none := by
  cases h1 : firstIdx lbrace s with
  | none => simp [extractJsonSpan, h1]
  | some i =>
    cases h2 : lastIdx rbrace s with
    | none => simp [extractJsonSpan, h1, h2]
    | some j =>
      by_cases hij : i < j
      · obtain ⟨a, b, c, hs⟩ := exists_decomp_of_spans s i j h1 h2 hij
        exact absurd hs (h a b c)
      · simp [extractJsonSpan, h1, h2, if_neg hij]

theorem no_lbrace_no_decomp (s : List Char) (h : lbrace ∉ s) :
    ∀ a b c : List Char, s ≠ a ++ lbrace :: (b ++ rbrace :: c) := by
  intro a b c hs
  apply h
  rw [hs]
  exact List.mem_append_right a (List.mem_cons_self _ _)

/-- C5: parse_gemini_response extracts the substring from the first
opening brace through the last closing brace of the input (greedy
across the whole span) and parses it as JSON; an input containing no
such brace-delimited span fails with the no-JSON-found error, and an
input whose extracted span is not valid JSON fails with the JSON
decode error — in neither case is a result returned. -/
theorem C5_extraction_rule (s : List Char) :
    ((∀ a b c : List Char, s ≠ a ++ lbrace :: (b ++ rbrace :: c)) →
      parse_gemini_response s = Except.error ("No JSON found in response"))
  ∧ (∀ a b c : List Char, s = a ++ lbrace :: (b ++ rbrace :: c) →
      lbrace ∉ a → rbrace ∉ c →
      extractJsonSpan s = some (lbrace :: (b ++ [rbrace]))
      ∧ (jsonParse (lbrace :: (b ++ [rbrace])) = none →
          parse_gemini_response s = Except.error ("json.decoder.JSONDecodeError"))) := by
  constructor
  · intro h
    have hex := extractJsonSpan_none_of_no_decomp s h
    simp [parse_gemini_response, hex]
  · intro a b c hs ha hc
    have hex : extractJsonSpan s = some (lbrace :: (b ++ [rbrace])) := by
      rw [hs]; exact extractJsonSpan_decomp a b c ha hc
    refine ⟨hex, fun hjp => ?_⟩
    simp [parse_gemini_response, hex, hjp]

/-- Witness for C5: a brace-free input fails with the no-JSON error,
and an input whose brace span is not valid JSON has exactly that span
extracted and fails with the decode error. -/
theorem C5_extraction_witness :
    parse_gemini_response C5noBrace = Except.error ("No JSON found in response")
  ∧ extractJsonSpan (String.toList ("x\x7bnotjson\x7dy")) =
      some (String.toList ("\x7bnotjson\x7d"))
  ∧ parse_gemini_response (String.toList ("x\x7bnotjson\x7dy")) =
      Except.error ("json.decoder.JSONDecodeError") := by
  have h2 := (C5_extraction_rule (String.toList ("x\x7bnotjson\x7dy"))).2
    (String.toList ("x")) (String.toList ("notjson")) (String.toList ("y"))
    (by decide) (by decide) (by decide)
  refine ⟨(C5_extraction_rule C5noBrace).1
    (no_lbrace_no_decomp C5noBrace (by decide)), ?_, h2.2 (by with_unfolding_all rfl)⟩
  have := h2.1
  simpa using this

theorem buildTierVals_error : ∀ (keys : List String) (kvs : List (String × ℚ)),
    (∃ k ∈ keys, kvs.lookup k = none) →
    ∃ msg, buildTierVals keys kvs = Except.error msg
  | [], _, h => by simp at h
  | k :: rest, kvs, h => by
    cases hl : kvs.lookup k with
    | none =>
      exact ⟨("ValidationError: field required: ") ++ k,
        by simp [buildTierVals, hl]⟩
    | some v =>
      obtain ⟨k', hk', hknone⟩ := h
      rcases List.mem_cons.mp hk' with rfl | hmem
      · rw [hl] at hknone; cases hknone
      · obtain ⟨msg, hmsg⟩ := buildTierVals_error rest kvs ⟨k', hmem, hknone⟩
        exact ⟨msg, by simp [buildTierVals, hl, hmsg]⟩

theorem buildTierVals_ok : ∀ (keys : List String) (kvs : List (String × ℚ)),
    (∀ k ∈ keys, (kvs.lookup k).isSome = true) →
    ∃ vs, buildTierVals keys kvs = Except.ok vs ∧ vs.length = keys.length
  | [], _, _ => ⟨[], rfl, rfl⟩
  | k :: rest, kvs, h => by
    have hk := h k (List.mem_cons_self k rest)
    cases hl : kvs.lookup k with
    | none => rw [hl] at hk; cases hk
    | some v =>
      obtain ⟨vs, hvs, hlen⟩ := buildTierVals_ok rest kvs
        (fun k' hk' => h k' (List.mem_cons_of_mem k hk'))
      exact ⟨v :: vs, by simp [buildTierVals, hl, hvs], by simp [hlen]⟩

theorem buildTier1_error (kvs : List (String × ℚ))
    (h : ∃ k ∈ tier1Keys, kvs.lookup k = none) :
    ∃ msg, buildTier1 kvs = Except.error msg := by
  obtain ⟨msg, hmsg⟩ := buildTierVals_error tier1Keys kvs h
  exact ⟨msg, by simp [buildTier1, hmsg]⟩

theorem buildTier1_ok (kvs : List (String × ℚ))
    (h : ∀ k ∈ tier1Keys, (kvs.lookup k).isSome = true) :
    ∃ t, buildTier1 kvs = Except.ok t := by
  obtain ⟨vs, hvs, hlen⟩ := buildTierVals_ok tier1Keys kvs h
  rcases vs with _ | ⟨a, _ | ⟨b, _ | ⟨c, _ | ⟨d, _ | ⟨e, _ | ⟨f, tail⟩⟩⟩⟩⟩⟩ <;>
    simp [tier1Keys] at hlen
  · exact ⟨⟨a, b, c, d, e⟩, by simp [buildTier1, hvs]⟩

theorem buildTier2_error (kvs : List (String × ℚ))
    (h : ∃ k ∈ tier2Keys, kvs.lookup k = none) :
    ∃ msg, buildTier2 kvs = Except.error msg := by
  obtain ⟨msg, hmsg⟩ := buildTierVals_error tier2Keys kvs h
  exact ⟨msg, by simp [buildTier2, hmsg]⟩

theorem buildTier2_ok (kvs : List (String × ℚ))
    (h : ∀ k ∈ tier2Keys, (kvs.lookup k).isSome = true) :
    ∃ t, buildTier2 kvs = Except.ok t := by
  obtain ⟨vs, hvs, hlen⟩ := buildTierVals_ok tier2Keys kvs h
  rcases vs with _ | ⟨a1, _ | ⟨a2, _ | ⟨a3, _ | ⟨a4, _ | ⟨a5, _ | ⟨a6, _ |
    ⟨a7, _ | ⟨a8, _ | ⟨a9, _ | ⟨a10, _ | ⟨a11, tail⟩⟩⟩⟩⟩⟩⟩⟩⟩⟩⟩ <;>
    simp [tier2Keys] at hlen
  · exact ⟨⟨a1, a2, a3, a4, a5, a6, a7, a8, a9, a10⟩, by simp [buildTier2, hvs]⟩

/-- C9 (amended): building the fixed-shape tier models from a parsed
reply fails exactly on a missing required key — a tier1 (tier2) dict
lacking one of its five (ten) fixed keys fails to validate, and
whenever the /analyze try block raises, the handler returns the
synthetic fallback response with a non-null error field; keys beyond
the required ones are ignored by validation (pydantic's default), so
a strict superset of the fixed keys does not fail — the original
claim's "exactly the fixed keys" is refuted by the counterexample. -/
theorem C9_missing_key_falls_back (kvs kvs2 : List (String × ℚ))
    (env : AnalyzeEnv) (req : AnalysisRequest) (e : String) :
    ((∃ k ∈ tier1Keys, kvs.lookup k = none) →
      ∃ msg, buildTier1 kvs = Except.error msg)
  ∧ ((∀ k ∈ tier1Keys, (kvs.lookup k).isSome = true) →
      ∃ t, buildTier1 kvs = Except.ok t)
  ∧ ((∃ k ∈ tier2Keys, kvs2.lookup k = none) →
      ∃ msg, buildTier2 kvs2 = Except.error msg)
  ∧ ((∀ k ∈ tier2Keys, (kvs2.lookup k).isSome = true) →
      ∃ t, buildTier2 kvs2 = Except.ok t)
  ∧ (analyzeTry env req = Except.error e →
      ∃ r, analyze_skin_lesion env req = Except.ok r ∧
        r.error = some (("Using fallback: ") ++ e) ∧ r.success = true) := by
  refine ⟨buildTier1_error kvs, buildTier1_ok kvs,
    buildTier2_error kvs2, buildTier2_ok kvs2, ?_⟩
  intro htry
  refine ⟨{ fallbackResponseVal env.draws with
    error := some (("Using fallback: ") ++ e) }, ?_, rfl, rfl⟩
  simp only [analyze_skin_lesion, htry, fallbackResponse_eq]

set_option maxRecDepth 40000 in
/-- Counterexample to C9 as stated: this reply's tier1 does not carry
exactly the five fixed keys — it has a sixth key "extra" — yet
validation ignores the extra key, construction succeeds, and /analyze
returns the parsed values with a null error field instead of the
fallback. -/
theorem C9_counterexample :
    (parse_gemini_response C9text).toOption.map
        (fun p => p.tier1.lookup ("extra")) = some (some (1/2))
  ∧ analyze_skin_lesion C9env C9req = Except.ok
      { success := true
        tier1 := ⟨1/10, 1/10, 1/10, 1/10, 1/10⟩
        tier2 := ⟨1/10, 1/10, 1/10, 1/10, 1/10, 1/10, 1/10, 1/10, 1/10, 1/10⟩
        ai_malignant_prob := 1/10
        description := ("d")
        recommendations := [("r")]
        confidence := 1/2
        error := none } := by
  constructor
  · with_unfolding_all rfl
  · with_unfolding_all rfl

/-- Witness for C9: a tier1 dict missing "fungal" fails, the five
keys plus an extra key validate, an empty tier2 dict fails, the ten
keys validate, and a raising try block yields the fallback with a
non-null error. -/
theorem C9_missing_key_witness :
    (∃ msg, buildTier1 [(("benign"), (1 : ℚ))] = Except.error msg)
  ∧ (∃ t, buildTier1 [(("fungal"), (1 : ℚ)), (("inflammatory"), 1),
      (("normal"), 1), (("malignant"), 1), (("benign"), 1),
      (("extra"), 7)] = Except.ok t)
  ∧ (∃ msg, buildTier2 [] = Except.error msg)
  ∧ (∃ t, buildTier2 [(("melanoma"), (1 : ℚ)), (("bcc"), 1), (("eczema"), 1),
      (("atopicDermatitis"), 1), (("melanocyticNevi"), 1), (("bkl"), 1),
      (("psoriasis"), 1), (("seborrheicKeratoses"), 1), (("tinea"), 1),
      (("warts"), 1)] = Except.ok t)
  ∧ (∃ r, analyze_skin_lesion C9envBoom C9req = Except.ok r ∧
      r.error = some (("Using fallback: ") ++ ("boom9")) ∧ r.success = true) := by
  have h1 := C9_missing_key_falls_back [(("benign"), (1 : ℚ))] []
    C9envBoom C9req ("boom9")
  have h2 := C9_missing_key_falls_back
    [(("fungal"), (1 : ℚ)), (("inflammatory"), 1), (("normal"), 1),
     (("malignant"), 1), (("benign"), 1), (("extra"), 7)]
    [(("melanoma"), (1 : ℚ)), (("bcc"), 1), (("eczema"), 1),
     (("atopicDermatitis"), 1), (("melanocyticNevi"), 1), (("bkl"), 1),
     (("psoriasis"), 1), (("seborrheicKeratoses"), 1), (("tinea"), 1),
     (("warts"), 1)]
    C9envBoom C9req ("boom9")
  refine ⟨h1.1 ⟨("fungal"), by decide, rfl⟩, h2.2.1 ?_,
    h1.2.2.1 ⟨("melanoma"), by decide, rfl⟩, h2.2.2.2.1 ?_,
    h1.2.2.2.2 (by with_unfolding_all rfl)⟩
  · intro k hk
    fin_cases hk <;> rfl
  · intro k hk
    fin_cases hk <;> rfl
